import Mathlib

/-!
Shallow embedding of the quest/resource bookkeeping state machine of
`myapps/game_companion/code/resources.py` and of the night-phase vote
handling of `myapps/game_werewolf/werewolf.py`.

Python dictionaries keyed by `MaterialItem` are embedded as association
lists together with the Python lookup discipline: a probe matches a stored
key when the two compare equal under the Python operator `==`, whose
dispatch (the reflected call runs first when the type of the right operand
is a proper subclass of the type of the left operand) makes it symmetric on
material items, so the orientation of the probe is immaterial.  Assignment
updates the first matching entry (keeping the stored key object) and
appends otherwise, exactly as a CPython dict whose keys are related by this
equality.  Exceptions escaping a call are embedded as `Except.error` with
the kind of exception; mutation of `Quest.current_status` is embedded by
returning the updated `Quest`.
-/

/-- Python class tag of a material item: the source defines the base class
`MaterialItem` and its subclass `Lumber`. -/
inductive MClass where
  | base
  | lumber
deriving DecidableEq, Repr

/-- A material item of `resources.py` (`MaterialItem.__init__`).  The
`item_id` field (a fresh uuid per item) is omitted: no operation of the
source ever reads it, and equality and hashing ignore it. -/
structure MaterialItem where
  cls : MClass
  name : String
  description : String
  possesser_id : String
  type_id : String
deriving DecidableEq, Repr

/-- Python `isinstance(b, c)` for the two material classes: every item is a
`MaterialItem`, only `Lumber` instances are `Lumber`. -/
def isinst (b : MaterialItem) (c : MClass) : Bool :=
  match c with
  | MClass.base => true
  | MClass.lumber => b.cls == MClass.lumber

/-- The direct call `a.__eq__(b)` of `MaterialItem.__eq__`:
`isinstance(another, self.__class__) and self.type_id == another.type_id`. -/
def dunderEq (a b : MaterialItem) : Bool :=
  isinst b a.cls && a.type_id == b.type_id

/-- The Python operator `a == b` on material items.  CPython tries the
reflected operation first when the type of the right operand is a proper
subclass of the type of the left operand, calling `b.__eq__(a)`; since
`MaterialItem.__eq__` always returns a plain bool, never `NotImplemented`,
that call decides.  In every other case `a.__eq__(b)` decides.  The result
is symmetric: items of different classes are always unequal (the
`isinstance` check of the `Lumber`-class operand runs first in either
orientation and fails), items of the same class compare by type id. -/
def pyEq (a b : MaterialItem) : Bool :=
  if a.cls == MClass.base && b.cls == MClass.lumber then dunderEq b a
  else dunderEq a b

/-- `MaterialItem.__hash__`: `hash(self.type_id)`. -/
def pyHash (a : MaterialItem) : UInt64 :=
  a.type_id.hash

/-- A Python dict from material items to integers, as an association list
in insertion order. -/
abbrev MDict := List (MaterialItem × Int)

/-- Python `q in d` for an `MDict`: some stored key equals the query key
under the Python `==` dispatch.  CPython probes with the stored key as the
left operand; `pyEq` is symmetric on material items, so writing the query
on the left is equivalent. -/
def mContains (d : MDict) (q : MaterialItem) : Bool :=
  d.any (fun kv => pyEq q kv.1)

/-- Python `d.get(q, dflt)` / `d[q]` for an `MDict`: the value of the first
stored key equal to the query key, else the default. -/
def mGet (d : MDict) (q : MaterialItem) (dflt : Int) : Int :=
  match d.find? (fun kv => pyEq q kv.1) with
  | some kv => kv.2
  | none => dflt

/-- Python `d[q] = v` for an `MDict`: replace the value of the first stored
key equal to the query key (the stored key object is kept), else append. -/
def mSet : MDict → MaterialItem → Int → MDict
  | [], k, v => [(k, v)]
  | kv :: rest, k, v =>
    if pyEq k kv.1 then (kv.1, v) :: rest else kv :: mSet rest k v

/-- The `Lumber` constructor: `Lumber(possesser_id)` fixes name,
description and type id from the class attributes. -/
def mkLumber (possesser_id : String) : MaterialItem :=
  { cls := MClass.lumber
    name := "lumber"
    description := "A piece of wood."
    possesser_id := possesser_id
    type_id := "lumber" }

/-- `material_item_factory`: builds `floor(number)` items by looking the
type identifier up in the catalog `{Lumber.type_id: Lumber}`.  The lookup
happens inside the comprehension, so an empty range never evaluates it; an
identifier missing from the catalog raises `KeyError`. -/
def material_item_factory (item_type_id : String) (possesser_id : String)
    (number : Int) : Except String (List MaterialItem) :=
  if number.toNat = 0 then Except.ok []
  else if item_type_id = "lumber" then
    Except.ok (List.replicate number.toNat (mkLumber possesser_id))
  else Except.error ("KeyError: " ++ item_type_id)

/-- `QuestMeta.__init__` with its default values.  The uuid-based
`_quest_id` is omitted: no claim-relevant operation reads it. -/
structure QuestMeta where
  name : String := "basic_quest"
  agent_id : String := ""
  description : String := "It is a quest base"
  hint : String := "You need to do something."
  unfinished_msg : String :=
    "The quest is not finished yet. Current status: \x7bcurrent_status\x7d"
  finished_msg : String := "You have finished the quest!"
  materials_requirement : MDict := []
deriving DecidableEq, Repr

/-- Quest state: its immutable meta and the mutable cumulative ledger
`current_status` (a dict from material item to amount). -/
structure Quest where
  quest_meta : QuestMeta
  current_status : MDict
deriving DecidableEq, Repr

/-- `Quest.__init__`: the ledger starts empty. -/
def mkQuest (quest_meta : QuestMeta) : Quest :=
  { quest_meta := quest_meta, current_status := [] }

/-- The argument `x` of `Quest.reply`.  `notDict` is any non-dict value.
For a dict, `agent_id = none` means the key is absent (a present non-string
value compares unequal to the owner string exactly as an absent key does,
and both produce the same error), and `material_submission = none` means
the key is absent or its value is not a dict (both produce the same
error). -/
inductive ReplyInput where
  | notDict
  | dict (agent_id : Option String)
         (material_submission : Option (List (String × Int)))
deriving DecidableEq, Repr

/-- `Quest._validate`: returns the error message (the `Error` value is a
`str` subclass whose text is the message) or `none` when valid. -/
def Quest.validate (q : Quest) (x : ReplyInput) : Option String :=
  match x with
  | ReplyInput.notDict => some "x must be a dict"
  | ReplyInput.dict a m =>
    if a ≠ some q.quest_meta.agent_id then some "agent_id not existed or invalid"
    else if m = none then some "material_submission not existed"
    else none

/-- The content dict returned by `Quest.reply`: keys `valid`, `finished`,
`message`, and the optional `hint` key. -/
structure ReplyResult where
  valid : Bool
  finished : Bool
  message : String
  hint : Option String
deriving DecidableEq, Repr

/-- The submission loop of `Quest.reply`: for each pair, skip amounts
`<= 0`, build the items via the factory (whose `KeyError` escapes with the
ledger as mutated so far), and credit the amount when `materials[0]` is in
the requirement dict.  The `ok []` case is `materials[0]` on an empty list
(`IndexError`); the factory never produces it for a positive amount. -/
def processPairs (req : MDict) (agent : String) :
    List (String × Int) → MDict → MDict × Option String
  | [], st => (st, none)
  | (tid, amount) :: rest, st =>
    if amount ≤ 0 then processPairs req agent rest st
    else
      match material_item_factory tid agent amount with
      | Except.error e => (st, some e)
      | Except.ok [] => (st, some "IndexError")
      | Except.ok (m :: _) =>
        if mContains req m then
          processPairs req agent rest (mSet st m (mGet st m 0 + amount))
        else processPairs req agent rest st

/-- `Quest.is_accomplished`: every required (material, amount) pair is
present in the ledger with at least the required amount. -/
def Quest.is_accomplished (q : Quest) : Bool :=
  q.quest_meta.materials_requirement.all
    (fun p => mContains q.current_status p.1 &&
      decide (p.2 ≤ mGet q.current_status p.1 0))

/-- A Python dict from strings to integers, as an association list with
first-match update. -/
def strSet : List (String × Int) → String → Int → List (String × Int)
  | [], k, v => [(k, v)]
  | kv :: rest, k, v =>
    if kv.1 = k then (k, v) :: rest else kv :: strSet rest k v

/-- `Quest._current_status_str`: `json.dumps` of the dict mapping
`str(material)` (which is the type id) to the amount. -/
def Quest.currentStatusStr (q : Quest) : String :=
  let res := q.current_status.foldl
    (fun acc kv => strSet acc kv.1.type_id kv.2) []
  "\x7b" ++ String.intercalate ", "
    (res.map (fun kv => "\"" ++ kv.1 ++ "\": " ++ toString kv.2)) ++ "\x7d"

/-- Python `template.format_map(\x7bkey: value\x7d)` for a template whose
only placeholder is the given key. -/
def formatMap1 (template key value : String) : String :=
  template.replace ("\x7b" ++ key ++ "\x7d") value

/-- The body of `Quest.reply` after validation succeeded: read the two
fields, run the submission loop, then report finished or unfinished.  The
catch-all arm is unreachable when validation succeeded. -/
def Quest.replyValid (q : Quest) (x : ReplyInput) :
    Quest × Except String ReplyResult :=
  match x with
  | ReplyInput.dict (some submission_agent_id) (some material_submission) =>
    let pr := processPairs q.quest_meta.materials_requirement
      submission_agent_id material_submission q.current_status
    let q2 : Quest := { q with current_status := pr.1 }
    (q2,
     match pr.2 with
     | some e => Except.error e
     | none =>
       if q2.is_accomplished then
         Except.ok { valid := true, finished := true,
                     message := q2.quest_meta.finished_msg, hint := none }
       else
         Except.ok { valid := true, finished := false,
                     message := formatMap1 q2.quest_meta.unfinished_msg
                       "current_status" (Quest.currentStatusStr q2),
                     hint := some q2.quest_meta.hint })
  | _ => (q, Except.error "KeyError")

/-- `Quest.reply`: on a validation error return the invalid-submission
content and leave the ledger untouched; otherwise run the submission
body. -/
def Quest.reply (q : Quest) (x : ReplyInput) :
    Quest × Except String ReplyResult :=
  match Quest.validate q x with
  | some err =>
    (q, Except.ok { valid := false, finished := false,
                    message := "Invalid submission: " ++ err, hint := none })
  | none => Quest.replyValid q x

/-- A sequence of `reply` calls on a quest, threading the mutated state. -/
def runReplies (q : Quest) (xs : List ReplyInput) : Quest :=
  xs.foldl (fun s x => (Quest.reply s x).1) q

/-- The `lumber_hunt` quest meta of the `__main__` block of the module: owner
`kerryyu`, requirement of 10 lumber. -/
def meta5 : QuestMeta :=
  { name := "lumber_hunt"
    agent_id := "kerryyu"
    description := "Get 10 lumber to build your first timber house."
    hint := "Check your inventory to see if you have enough lumber. Felwood is a good place to find lumber."
    materials_requirement := [(mkLumber "", 10)] }

/-- The submission content of the `__main__` block: 5 lumber from the
owner. -/
def sub5 : ReplyInput :=
  ReplyInput.dict (some "kerryyu") (some [("lumber", 5)])

/-- A material item of the base class with the lumber type id, used to
compare equality across the `MaterialItem`/`Lumber` class pair. -/
def baseLumberItem : MaterialItem :=
  { cls := MClass.base
    name := ""
    description := ""
    possesser_id := ""
    type_id := "lumber" }

/-- A quest owned by `npc1` whose requirement names a non-lumber material
type, so lumber submissions resolve through the catalog but are not
required. -/
def questStoneReq : Quest :=
  mkQuest
    { agent_id := "npc1"
      materials_requirement :=
        [({ cls := MClass.base
            name := "stone"
            description := "A piece of stone."
            possesser_id := ""
            type_id := "stone" }, 10)] }

/-!
Modelled from the spec: `majority_vote` lives in
`myapps/game_werewolf/werewolf_utils.py`, which is not among the sources;
only its callers in `werewolf.py` are.  Per the spec it ignores empty
votes, counts occurrences of each distinct non-empty vote, returns the
candidate with the strictly highest count (first-seen order among ties)
and a sentinel for "no winner"; the callers test the sentinel with
`len(vote_res) == 0`, so the sentinel is the empty string.
-/

/-- Modelled from the spec: the number of occurrences of a candidate among
a vote list. -/
def countVotes (votes : List String) (c : String) : Nat :=
  (votes.filter (fun v => v = c)).length

/-- Modelled from the spec: `majority_vote` of `werewolf_utils` (missing
from the sources) — drop empty votes, then pick the first-seen candidate
with the highest occurrence count, or the empty sentinel when no valid
vote exists. -/
def majority_vote (votes : List String) : String :=
  let valid := votes.filter (fun v => v ≠ "")
  valid.foldl
    (fun best v => if countVotes valid best < countVotes valid v then v else best) ""

/-- The finished-quest witness scenario: an owner submission against an
empty requirement, and the reply content it produces. -/
def questW8 : Quest := mkQuest {}

/-- An empty valid submission from the default (empty) owner id. -/
def subW8 : ReplyInput := ReplyInput.dict (some "") (some [])

/-- The reply content of `questW8` to `subW8`. -/
def replyW8 : ReplyResult :=
  { valid := true
    finished := true
    message := "You have finished the quest!"
    hint := none }

/-- The two broadcasts the night phase of `werewolf.py` can send to the
wolves: the `to_wolves_res_empty` message or the `to_wolves_res` message
for the named victim. -/
inductive WolfBroadcast where
  | resEmpty
  | res (name : String)
deriving DecidableEq, Repr

/-- The `dead_player` list as built by the night phase of `werewolf.py`:
`dead_player = [majority_vote(votes)]`. -/
def night_dead_player (votes : List String) : List String :=
  [majority_vote votes]

/-- The branch of `werewolf.py` that broadcasts the night result to the
wolves: the empty message when `len(dead_player) == 0`, else the message
naming `dead_player[0]` (the guard makes the list access safe). -/
def night_broadcast (votes : List String) : WolfBroadcast :=
  let dead_player := night_dead_player votes
  if dead_player.length == 0 then WolfBroadcast.resEmpty
  else WolfBroadcast.res (dead_player.headD "")

theorem mGet_cons (kv : MaterialItem × Int) (rest : MDict) (q : MaterialItem)
    (d : Int) :
    mGet (kv :: rest) q d = if pyEq q kv.1 then kv.2 else mGet rest q d := by
  by_cases h : pyEq q kv.1 = true <;> simp [mGet, List.find?_cons, h]

theorem mGet_mSet_ge (st : MDict) (k : MaterialItem) (v : Int)
    (hv : mGet st k 0 ≤ v) (q : MaterialItem) :
    mGet st q 0 ≤ mGet (mSet st k v) q 0 := by
  induction st with
  | nil =>
    have h1 : mSet [] k v = [(k, v)] := rfl
    rw [h1, mGet_cons]
    by_cases h : pyEq q k = true
    · simpa [h] using hv
    · simp [h, mGet]
  | cons kv rest ih =>
    by_cases hk : pyEq k kv.1 = true
    · have hset : mSet (kv :: rest) k v = (kv.1, v) :: rest := by
        simp [mSet, hk]
      have hg : mGet (kv :: rest) k 0 = kv.2 := by simp [mGet_cons, hk]
      rw [hset, mGet_cons, mGet_cons]
      by_cases hq : pyEq q kv.1 = true
      · simp only [hq, if_pos]
        exact hg ▸ hv
      · simp [hq]
    · have hset : mSet (kv :: rest) k v = kv :: mSet rest k v := by
        simp [mSet, hk]
      have hg : mGet (kv :: rest) k 0 = mGet rest k 0 := by simp [mGet_cons, hk]
      rw [hset, mGet_cons, mGet_cons]
      by_cases hq : pyEq q kv.1 = true
      · simp [hq]
      · simp only [hq, if_neg]
        exact ih (hg ▸ hv)

theorem mGet_nonneg (st : MDict) (q : MaterialItem)
    (h : ∀ kv ∈ st, 0 ≤ kv.2) : 0 ≤ mGet st q 0 := by
  unfold mGet
  cases hf : st.find? (fun kv => pyEq q kv.1) with
  | none => simp
  | some kv => exact h kv (List.mem_of_find?_eq_some hf)

theorem mSet_nonneg (st : MDict) (k : MaterialItem) (v : Int)
    (hst : ∀ kv ∈ st, 0 ≤ kv.2) (hv : 0 ≤ v) :
    ∀ kv ∈ mSet st k v, 0 ≤ kv.2 := by
  induction st with
  | nil =>
    intro kv hkv
    simp [mSet] at hkv
    simp [hkv, hv]
  | cons a rest ih =>
    intro kv hkv
    by_cases hk : pyEq k a.1 = true
    · simp [mSet, hk] at hkv
      rcases hkv with h1 | h2
      · simp [h1, hv]
      · exact hst kv (List.mem_cons_of_mem a h2)
    · simp [mSet, hk] at hkv
      rcases hkv with h1 | h2
      · exact hst kv (h1 ▸ List.mem_cons_self a rest)
      · exact ih (fun p hp => hst p (List.mem_cons_of_mem a hp)) kv h2

theorem processPairs_mGet_ge (req : MDict) (agent : String)
    (subs : List (String × Int)) (st : MDict) (q : MaterialItem) :
    mGet st q 0 ≤ mGet (processPairs req agent subs st).1 q 0 := by
  induction subs generalizing st with
  | nil => simp [processPairs]
  | cons p rest ih =>
    obtain ⟨tid, amount⟩ := p
    by_cases ha : amount ≤ 0
    · simpa [processPairs, ha] using ih st
    · simp only [processPairs, if_neg ha]
      cases hf : material_item_factory tid agent amount with
      | error e => simp
      | ok ms =>
        cases ms with
        | nil => simp
        | cons m tl =>
          by_cases hc : mContains req m = true
          · simp only [hc, if_pos]
            refine le_trans (mGet_mSet_ge st m (mGet st m 0 + amount) ?_ q) (ih _)
            have : 0 < amount := lt_of_not_ge (by simpa using ha)
            omega
          · simpa [hc] using ih st

theorem processPairs_nonneg (req : MDict) (agent : String)
    (subs : List (String × Int)) (st : MDict)
    (hst : ∀ kv ∈ st, 0 ≤ kv.2) :
    ∀ kv ∈ (processPairs req agent subs st).1, 0 ≤ kv.2 := by
  induction subs generalizing st with
  | nil => simpa [processPairs] using hst
  | cons p rest ih =>
    obtain ⟨tid, amount⟩ := p
    by_cases ha : amount ≤ 0
    · simpa [processPairs, ha] using ih st hst
    · simp only [processPairs, if_neg ha]
      cases hf : material_item_factory tid agent amount with
      | error e => simpa using hst
      | ok ms =>
        cases ms with
        | nil => simpa using hst
        | cons m tl =>
          by_cases hc : mContains req m = true
          · simp only [hc, if_pos]
            refine ih _ (mSet_nonneg st m (mGet st m 0 + amount) hst ?_)
            have h0 : 0 ≤ mGet st m 0 := mGet_nonneg st m hst
            have : 0 < amount := lt_of_not_ge (by simpa using ha)
            omega
          · simpa [hc] using ih st hst

theorem reply_mGet_ge (q : Quest) (x : ReplyInput) (m : MaterialItem) :
    mGet q.current_status m 0 ≤ mGet (Quest.reply q x).1.current_status m 0 := by
  unfold Quest.reply
  cases hv : Quest.validate q x with
  | some e => simp
  | none =>
    unfold Quest.replyValid
    cases x with
    | notDict => simp
    | dict a ms =>
      cases a with
      | none => simp
      | some aid =>
        cases ms with
        | none => simp
        | some subs =>
          simpa using processPairs_mGet_ge q.quest_meta.materials_requirement
            aid subs q.current_status m

theorem reply_nonneg (q : Quest) (x : ReplyInput)
    (h : ∀ kv ∈ q.current_status, 0 ≤ kv.2) :
    ∀ kv ∈ (Quest.reply q x).1.current_status, 0 ≤ kv.2 := by
  unfold Quest.reply
  cases hv : Quest.validate q x with
  | some e => simpa using h
  | none =>
    unfold Quest.replyValid
    cases x with
    | notDict => simpa using h
    | dict a ms =>
      cases a with
      | none => simpa using h
      | some aid =>
        cases ms with
        | none => simpa using h
        | some subs =>
          simpa using processPairs_nonneg q.quest_meta.materials_requirement
            aid subs q.current_status h

theorem runReplies_mGet_ge (q : Quest) (xs : List ReplyInput)
    (m : MaterialItem) :
    mGet q.current_status m 0 ≤ mGet (runReplies q xs).current_status m 0 := by
  induction xs generalizing q with
  | nil => simp [runReplies]
  | cons x rest ih =>
    simp only [runReplies, List.foldl_cons]
    exact le_trans (reply_mGet_ge q x m) (ih _)

theorem runReplies_nonneg (q : Quest) (xs : List ReplyInput)
    (h : ∀ kv ∈ q.current_status, 0 ≤ kv.2) :
    ∀ kv ∈ (runReplies q xs).current_status, 0 ≤ kv.2 := by
  induction xs generalizing q with
  | nil => simpa [runReplies] using h
  | cons x rest ih =>
    simp only [runReplies, List.foldl_cons]
    exact ih _ (reply_nonneg q x h)

theorem processPairs_frame (req : MDict) (agent : String)
    (subs : List (String × Int)) (st : MDict)
    (h : ∀ p ∈ subs, 0 < p.2 →
      p.1 = "lumber" ∧ mContains req (mkLumber agent) = false) :
    processPairs req agent subs st = (st, none) := by
  induction subs with
  | nil => simp [processPairs]
  | cons p rest ih =>
    obtain ⟨tid, amount⟩ := p
    have hrest : ∀ p ∈ rest, 0 < p.2 →
        p.1 = "lumber" ∧ mContains req (mkLumber agent) = false :=
      fun p hp => h p (List.mem_cons_of_mem _ hp)
    by_cases ha : amount ≤ 0
    · simpa [processPairs, ha] using ih hrest
    · have hpos : 0 < amount := lt_of_not_ge (by simpa using ha)
      obtain ⟨htid, hreq⟩ := h (tid, amount) (List.mem_cons_self _ _) hpos
      subst htid
      obtain ⟨n, hn⟩ : ∃ n, amount.toNat = n + 1 := ⟨amount.toNat - 1, by omega⟩
      have hfac : material_item_factory "lumber" agent amount =
          Except.ok (mkLumber agent :: List.replicate n (mkLumber agent)) := by
        simp [material_item_factory, hn, List.replicate_succ]
      simp only [processPairs, if_neg ha, hfac, hreq]
      simpa [hreq] using ih hrest

theorem reply_frame (q : Quest) (subs : List (String × Int))
    (h : ∀ p ∈ subs, 0 < p.2 →
      p.1 = "lumber" ∧
      mContains q.quest_meta.materials_requirement
        (mkLumber q.quest_meta.agent_id) = false) :
    (Quest.reply q
      (ReplyInput.dict (some q.quest_meta.agent_id) (some subs))).1.current_status
        = q.current_status ∧
    ((Quest.reply q
      (ReplyInput.dict (some q.quest_meta.agent_id) (some subs))).2).map
        ReplyResult.valid = Except.ok true := by
  have hval : Quest.validate q
      (ReplyInput.dict (some q.quest_meta.agent_id) (some subs)) = none := by
    simp [Quest.validate]
  have hpp := processPairs_frame q.quest_meta.materials_requirement
    q.quest_meta.agent_id subs q.current_status h
  unfold Quest.reply
  rw [hval]
  unfold Quest.replyValid
  simp only [hpp]
  constructor
  · trivial
  · by_cases hacc : Quest.is_accomplished { q with current_status := q.current_status } = true
    · simp [hacc, Except.map]
    · simp [hacc, Except.map]

theorem foldl_argmax_ge (f : String → Nat) (l : List String) (b : String) :
    f b ≤ f (l.foldl (fun best v => if f best < f v then v else best) b) ∧
    ∀ c ∈ l, f c ≤ f (l.foldl (fun best v => if f best < f v then v else best) b) := by
  induction l generalizing b with
  | nil => simp
  | cons v rest ih =>
    simp only [List.foldl_cons]
    by_cases hv : f b < f v
    · simp only [if_pos hv]
      refine ⟨le_trans (le_of_lt hv) (ih v).1, ?_⟩
      intro c hc
      rcases List.mem_cons.mp hc with h | h
      · exact h ▸ (ih v).1
      · exact (ih v).2 c h
    · simp only [if_neg hv]
      refine ⟨(ih b).1, ?_⟩
      intro c hc
      rcases List.mem_cons.mp hc with h | h
      · exact h ▸ le_trans (not_lt.mp hv) (ih b).1
      · exact (ih b).2 c h

/-- C2: every input failing validation (non-dict, absent or mismatching
`agent_id`, absent or non-dict `material_submission`) yields `valid: false`,
`finished: false`, a message starting `Invalid submission:`, and leaves the
ledger completely unmodified. -/
theorem quest_reply_invalid_submission (q : Quest) (x : ReplyInput)
    (e : String) (h : Quest.validate q x = some e) :
    Quest.reply q x =
      (q, Except.ok { valid := false,
                      finished := false,
                      message := "Invalid submission: " ++ e,
                      hint := none }) ∧
    Quest.validate q ReplyInput.notDict = some "x must be a dict" ∧
    ∀ (a : Option String) (m : Option (List (String × Int))),
      Quest.validate q (ReplyInput.dict a m) = none ↔
        (a = some q.quest_meta.agent_id ∧ m ≠ none) := by
  refine ⟨?_, rfl, ?_⟩
  · unfold Quest.reply
    rw [h]
  · intro a m
    unfold Quest.validate
    by_cases ha : a = some q.quest_meta.agent_id
    · by_cases hm : m = none <;> simp [ha, hm]
    · simp [ha]

theorem quest_reply_invalid_submission_witness :
    Quest.reply (mkQuest meta5) ReplyInput.notDict =
      (mkQuest meta5,
       Except.ok { valid := false,
                   finished := false,
                   message := "Invalid submission: " ++ "x must be a dict",
                   hint := none }) :=
  (quest_reply_invalid_submission (mkQuest meta5) ReplyInput.notDict
    "x must be a dict" rfl).1

/-- C3: `is_accomplished` is true iff every required pair is recorded with
at least the required amount; an empty requirement is vacuously
accomplished. -/
theorem quest_is_accomplished_iff (q : Quest) :
    (q.is_accomplished = true ↔
      ∀ p ∈ q.quest_meta.materials_requirement,
        mContains q.current_status p.1 = true ∧
        p.2 ≤ mGet q.current_status p.1 0) ∧
    (q.quest_meta.materials_requirement = [] → q.is_accomplished = true) := by
  constructor
  · simp [Quest.is_accomplished, List.all_eq_true, Bool.and_eq_true,
      decide_eq_true_eq]
  · intro h
    simp [Quest.is_accomplished, h]

theorem quest_is_accomplished_iff_witness :
    (mkQuest {}).is_accomplished = true :=
  (quest_is_accomplished_iff (mkQuest {})).2 rfl

/-- C4: across any sequence of `reply` calls the cumulative ledger amount
for each material never decreases, and every stored amount on a quest
started from the empty ledger stays nonnegative. -/
theorem quest_ledger_monotone_nonneg :
    (∀ (q : Quest) (x : ReplyInput) (m : MaterialItem),
      mGet q.current_status m 0 ≤ mGet (Quest.reply q x).1.current_status m 0) ∧
    (∀ (q : Quest) (xs : List ReplyInput) (m : MaterialItem),
      mGet q.current_status m 0 ≤ mGet (runReplies q xs).current_status m 0) ∧
    (∀ (qm : QuestMeta) (xs : List ReplyInput),
      ∀ kv ∈ (runReplies (mkQuest qm) xs).current_status, 0 ≤ kv.2) :=
  ⟨reply_mGet_ge, runReplies_mGet_ge,
   fun qm xs => runReplies_nonneg (mkQuest qm) xs (by simp [mkQuest])⟩

theorem quest_ledger_monotone_nonneg_witness :
    0 ≤ (mkLumber "kerryyu", (5 : Int)).2 :=
  quest_ledger_monotone_nonneg.2.2 meta5 [sub5] (mkLumber "kerryyu", 5)
    (by decide)

/-- C5: against the `lumber_hunt` requirement of 10 lumber, two owner
submissions of 5 lumber each give first `valid: true, finished: false`,
then `valid: true, finished: true` with the configured finished message. -/
theorem quest_two_submissions_scenario :
    ((Quest.reply (mkQuest meta5) sub5).2).map (fun r => (r.valid, r.finished)) =
      Except.ok (true, false) ∧
    ((Quest.reply (Quest.reply (mkQuest meta5) sub5).1 sub5).2).map
        (fun r => (r.valid, r.finished, r.message)) =
      Except.ok (true, true, meta5.finished_msg) :=
  ⟨rfl, rfl⟩

/-- C6: a pair with a nonpositive amount is skipped silently without
touching the rest of the loop, and a valid submission whose amounts are all
nonpositive returns `valid: true` with the ledger unchanged. -/
theorem quest_nonpositive_amounts_skipped :
    (∀ (req : MDict) (agent tid : String) (a : Int)
        (rest : List (String × Int)) (st : MDict), a ≤ 0 →
      processPairs req agent ((tid, a) :: rest) st =
        processPairs req agent rest st) ∧
    (∀ (q : Quest) (subs : List (String × Int)), (∀ p ∈ subs, p.2 ≤ 0) →
      (Quest.reply q (ReplyInput.dict (some q.quest_meta.agent_id)
        (some subs))).1.current_status = q.current_status ∧
      ((Quest.reply q (ReplyInput.dict (some q.quest_meta.agent_id)
        (some subs))).2).map ReplyResult.valid = Except.ok true) := by
  constructor
  · intro req agent tid a rest st ha
    simp [processPairs, ha]
  · intro q subs h
    exact reply_frame q subs
      (fun p hp hpos => absurd hpos (not_lt.mpr (h p hp)))

theorem quest_nonpositive_amounts_skipped_witness :
    (Quest.reply (mkQuest meta5)
      (ReplyInput.dict (some (mkQuest meta5).quest_meta.agent_id)
        (some [("lumber", 0), ("stone", -3)]))).1.current_status =
      (mkQuest meta5).current_status ∧
    ((Quest.reply (mkQuest meta5)
      (ReplyInput.dict (some (mkQuest meta5).quest_meta.agent_id)
        (some [("lumber", 0), ("stone", -3)]))).2).map ReplyResult.valid =
      Except.ok true :=
  quest_nonpositive_amounts_skipped.2 (mkQuest meta5)
    [("lumber", 0), ("stone", -3)] (by decide)

/-- C1 counterexample: a submission pair naming `stone`, a material type
identifier absent from the catalog, makes `reply` raise a `KeyError`
instead of returning a `valid: true` result. -/
theorem quest_stone_submission_raises :
    (Quest.reply (mkQuest meta5)
      (ReplyInput.dict (some "kerryyu") (some [("stone", 5)]))).2 =
      Except.error "KeyError: stone" := rfl

/-- C1 amended: for a valid submission whose positive-amount pairs all
resolve through the catalog (identifier `lumber`) to a type outside the
requirement set, `reply` returns `valid: true`, the pairs contribute zero
credit, and the ledger is unchanged. -/
theorem quest_catalog_material_not_required_dropped (q : Quest)
    (subs : List (String × Int))
    (h1 : ∀ p ∈ subs, 0 < p.2 → p.1 = "lumber")
    (h2 : mContains q.quest_meta.materials_requirement
      (mkLumber q.quest_meta.agent_id) = false) :
    (Quest.reply q (ReplyInput.dict (some q.quest_meta.agent_id)
      (some subs))).1.current_status = q.current_status ∧
    ((Quest.reply q (ReplyInput.dict (some q.quest_meta.agent_id)
      (some subs))).2).map ReplyResult.valid = Except.ok true :=
  reply_frame q subs (fun p hp hpos => ⟨h1 p hp hpos, h2⟩)

theorem quest_catalog_material_not_required_dropped_witness :
    (Quest.reply questStoneReq (ReplyInput.dict
      (some questStoneReq.quest_meta.agent_id)
      (some [("lumber", 5)]))).1.current_status =
      questStoneReq.current_status ∧
    ((Quest.reply questStoneReq (ReplyInput.dict
      (some questStoneReq.quest_meta.agent_id)
      (some [("lumber", 5)]))).2).map ReplyResult.valid = Except.ok true :=
  quest_catalog_material_not_required_dropped questStoneReq [("lumber", 5)]
    (by decide) (by decide)

/-- C7: the majority vote returns a candidate whose occurrence count among
the non-empty votes is maximal; on the example it returns the plurality
winner, and with no votes it returns the empty sentinel, not an error. -/
theorem majority_vote_counts_and_sentinel :
    majority_vote ["A", "B", "A"] = "A" ∧
    majority_vote [] = "" ∧
    ∀ (votes : List String) (c : String), c ∈ votes → c ≠ "" →
      countVotes (votes.filter (fun v => v ≠ "")) c ≤
        countVotes (votes.filter (fun v => v ≠ "")) (majority_vote votes) := by
  refine ⟨rfl, rfl, ?_⟩
  intro votes c hc hne
  have hmem : c ∈ votes.filter (fun v => v ≠ "") := by
    simp [List.mem_filter, hc, hne]
  simpa [majority_vote] using
    (foldl_argmax_ge (countVotes (votes.filter (fun v => v ≠ "")))
      (votes.filter (fun v => v ≠ "")) "").2 c hmem

theorem majority_vote_counts_and_sentinel_witness :
    countVotes (["A", "B", "A"].filter (fun v => v ≠ "")) "B" ≤
      countVotes (["A", "B", "A"].filter (fun v => v ≠ ""))
        (majority_vote ["A", "B", "A"]) :=
  majority_vote_counts_and_sentinel.2.2 ["A", "B", "A"] "B" (by decide)
    (by decide)

/-- C9 counterexample: a `Lumber` item and a base-class item with the same
type id are unequal under `==` in both directions although their type ids
agree, so equality is not by identifier only. -/
theorem material_eq_not_type_id_only :
    pyEq (mkLumber "") baseLumberItem = false ∧
    pyEq baseLumberItem (mkLumber "") = false ∧
    (mkLumber "").type_id = baseLumberItem.type_id := by decide

/-- C9 amended: `a == b` holds iff the two items are of the same class and
their type ids agree; the equality is symmetric, restricted to items of one
class it is exactly type-id equality (independent of name, description,
possessor or item id), and the hash depends only on the type id. -/
theorem material_eq_hash_by_class_and_type_id :
    (∀ a b : MaterialItem, pyEq a b = true ↔
      (a.cls = b.cls ∧ a.type_id = b.type_id)) ∧
    (∀ a b : MaterialItem, pyEq a b = pyEq b a) ∧
    (∀ a b : MaterialItem, a.cls = b.cls →
      (pyEq a b = true ↔ a.type_id = b.type_id)) ∧
    (∀ a b : MaterialItem, a.type_id = b.type_id → pyHash a = pyHash b) := by
  have hiff : ∀ a b : MaterialItem, pyEq a b = true ↔
      (a.cls = b.cls ∧ a.type_id = b.type_id) := by
    intro a b
    cases ha : a.cls <;> cases hb : b.cls <;>
      simp [pyEq, dunderEq, isinst, ha, hb]
  refine ⟨hiff, ?_, ?_, ?_⟩
  · intro a b
    by_cases h : pyEq a b = true
    · have h2 := (hiff a b).mp h
      have h3 : pyEq b a = true := (hiff b a).mpr ⟨h2.1.symm, h2.2.symm⟩
      rw [h, h3]
    · have h2 : ¬ pyEq b a = true := fun hba =>
        h ((hiff a b).mpr
          ⟨((hiff b a).mp hba).1.symm, ((hiff b a).mp hba).2.symm⟩)
      rw [Bool.not_eq_true] at h h2
      rw [h, h2]
  · intro a b hcls
    rw [hiff a b]
    simp [hcls]
  · intro a b h
    simp [pyHash, h]

theorem material_eq_hash_by_class_and_type_id_witness :
    pyHash (mkLumber "npc1") = pyHash (mkLumber "npc2") :=
  material_eq_hash_by_class_and_type_id.2.2.2 (mkLumber "npc1")
    (mkLumber "npc2") rfl

/-- C10: the night phase always wraps the majority vote in a one-element
list, so the empty-result broadcast branch is unreachable and the named
broadcast is always taken. -/
theorem night_broadcast_nonempty_branch (votes : List String) :
    (night_dead_player votes).length = 1 ∧
    night_broadcast votes = WolfBroadcast.res (majority_vote votes) :=
  ⟨rfl, rfl⟩

theorem replyValid_ok (q : Quest) (x : ReplyInput) (r : ReplyResult)
    (h : (Quest.replyValid q x).2 = Except.ok r) :
    r.valid = true ∧
    (r.finished = true → r.hint = none ∧
      r.message = q.quest_meta.finished_msg) ∧
    (r.finished = false → r.hint = some q.quest_meta.hint) := by
  unfold Quest.replyValid at h
  cases x with
  | notDict => simp at h
  | dict a ms =>
    cases a with
    | none => simp at h
    | some aid =>
      cases ms with
      | none => simp at h
      | some subs =>
        simp only [] at h
        rcases hpp : processPairs q.quest_meta.materials_requirement aid subs
            q.current_status with ⟨st, exc⟩
        rw [hpp] at h
        cases exc with
        | some e => simp at h
        | none =>
          by_cases hacc : Quest.is_accomplished
              { q with current_status := st } = true
          · simp only [hacc, if_pos] at h
            injection h with h
            rw [← h]
            simp
          · simp only [hacc, if_neg] at h
            injection h with h
            rw [← h]
            simp

/-- C8: a valid reply carries the hint exactly when the quest is not
finished; when finished the message is the configured finished message and
no hint is present, otherwise the configured hint is attached. -/
theorem quest_reply_hint_iff_unfinished (q : Quest) (x : ReplyInput)
    (r : ReplyResult) (h : (Quest.reply q x).2 = Except.ok r)
    (hv : r.valid = true) :
    (r.hint = none ↔ r.finished = true) ∧
    (r.finished = true → r.message = q.quest_meta.finished_msg) ∧
    (r.finished = false → r.hint = some q.quest_meta.hint) := by
  unfold Quest.reply at h
  cases hval : Quest.validate q x with
  | some e =>
    rw [hval] at h
    simp only [] at h
    injection h with h
    rw [← h] at hv
    simp at hv
  | none =>
    rw [hval] at h
    obtain ⟨_, h2, h3⟩ := replyValid_ok q x r h
    refine ⟨?_, fun hf => (h2 hf).2, h3⟩
    constructor
    · intro hn
      by_contra hf
      have := h3 (by simpa using hf)
      rw [hn] at this
      exact Option.noConfusion this
    · intro hf
      exact (h2 hf).1

theorem quest_reply_hint_iff_unfinished_witness :
    (replyW8.hint = none ↔ replyW8.finished = true) ∧
    (replyW8.finished = true →
      replyW8.message = questW8.quest_meta.finished_msg) ∧
    (replyW8.finished = false → replyW8.hint = some questW8.quest_meta.hint) :=
  quest_reply_hint_iff_unfinished questW8 subW8 replyW8 rfl rfl
